import Mathlib

/-!
Verification development for the lomas DP query service: a shallow
embedding of the Administration Store data model (users, per-dataset
budget entries, query archive), the Admission & Budget Engine operations
(`execute_query`, `execute_dummy_query`, `estimate_cost`), the dummy
dataset generator and the response-timing shaper, together with proofs
of the budget-accounting, error-handling and determinism properties.

Budgets and privacy costs are modelled as exact rationals.
-/

namespace Lomas

/-- A per-dataset budget entry of a user, as stored in the `users`
collection (`initial_epsilon`, `initial_delta`, `total_spent_epsilon`,
`total_spent_delta` in the YAML user collection). -/
structure BudgetEntry where
  initial_epsilon : ℚ
  initial_delta : ℚ
  spent_epsilon : ℚ
  spent_delta : ℚ
deriving Repr, DecidableEq

/-- A user record of the Administration Store: unique name, the
`may_query` flag and an ordered list of per-dataset budget entries. -/
structure UserRec where
  user_name : String
  may_query : Bool
  datasets_list : List (String × BudgetEntry)
deriving Repr, DecidableEq

/-- Terminal status of an archived query. -/
inductive ArchiveStatus where
  | OK
  | LIB_FAIL
  | INTERNAL_FAIL
  | COMPENSATED
deriving Repr, DecidableEq

/-- An append-only archive row: one per accepted production job,
carrying the measured cost that was debited. -/
structure ArchiveRow where
  user_name : String
  dataset_name : String
  epsilon : ℚ
  delta : ℚ
  status : ArchiveStatus
deriving Repr, DecidableEq

/-- The Administration Store state: the `users` collection and the
append-only `queries_archives` collection. -/
structure ASState where
  users : List UserRec
  archive : List ArchiveRow
deriving Repr, DecidableEq

/-- First user record with the given name, as a keyed read of the
`users` collection. -/
def findUser : List UserRec → String → Option UserRec
  | [], _ => none
  | r :: rest, u => if r.user_name = u then some r else findUser rest u

/-- First budget entry for the given dataset in a user's dataset list. -/
def findEntry : List (String × BudgetEntry) → String → Option BudgetEntry
  | [], _ => none
  | (k, b) :: rest, d => if k = d then some b else findEntry rest d

/-- Update the dataset list of the first user record with the given
name, leaving every other record untouched. -/
def updUser : List UserRec → String →
    (List (String × BudgetEntry) → List (String × BudgetEntry)) → List UserRec
  | [], _, _ => []
  | r :: rest, u, f =>
    if r.user_name = u then { r with datasets_list := f r.datasets_list } :: rest
    else r :: updUser rest u f

/-- Update the budget entry of the first pair with the given dataset
name, leaving every other pair untouched. -/
def updEntry : List (String × BudgetEntry) → String →
    (BudgetEntry → BudgetEntry) → List (String × BudgetEntry)
  | [], _, _ => []
  | (k, b) :: rest, d, f =>
    if k = d then (k, f b) :: rest else (k, b) :: updEntry rest d f

/-- Budget entry of `(user, dataset)` in the Administration Store. -/
def lookupBudget (st : ASState) (u d : String) : Option BudgetEntry :=
  match findUser st.users u with
  | none => none
  | some r => findEntry r.datasets_list d

/-- Pointwise update of the budget entry of `(user, dataset)`. -/
def updateBudget (st : ASState) (u d : String) (f : BudgetEntry → BudgetEntry) : ASState :=
  { st with users := updUser st.users u (fun l => updEntry l d f) }

/-- Append one row to the query archive. -/
def pushArchive (st : ASState) (row : ArchiveRow) : ASState :=
  { st with archive := st.archive ++ [row] }

/-! ## Dummy Generator -/

/-- Per-column schema of the dataset metadata: numeric columns carry
bounds, categorical columns their category list, datetime columns a
declared range.  The default null probability is zero, so the
generator never draws nulls. -/
inductive ColumnSpec where
  | intCol (lower upper : Int)
  | floatCol (lower upper : ℚ)
  | catCol (categories : List String)
  | boolCol
  | dateCol (lower upper : Nat)
deriving Repr, DecidableEq

/-- Dataset metadata: `max_ids`, the row upper bound and the ordered
column schema. -/
structure Metadata where
  max_ids : Nat
  rows : Nat
  columns : List (String × ColumnSpec)
deriving Repr, DecidableEq

/-- One generated cell of the dummy frame. -/
inductive Cell where
  | int (i : Int)
  | rat (q : ℚ)
  | str (s : String)
  | bool (b : Bool)
  | date (t : Nat)
deriving Repr, DecidableEq

/-- A tabular frame: ordered named columns of cells. -/
abbrev Frame := List (String × List Cell)

/-- Modelled from the spec: the pseudo-random generator state
transition backing the Dummy Generator (a linear congruential step
standing in for the seeded numpy generator, which is missing from the
sources). -/
def lcgNext (s : Nat) : Nat := (1103515245 * s + 12345) % 2147483648

/-- Modelled from the spec: draw one cell from a column schema and a
raw pseudo-random value — numeric `int` uniform in `[lower, upper]`
inclusive, `float` uniform with half-open upper bound, categorical and
`bool` uniform over the categories, `datetime` uniform over the
declared range (`get_dummy_dataset` is missing from the sources). -/
def drawCell (spec : ColumnSpec) (r : Nat) : Cell :=
  match spec with
  | .intCol lo hi => .int (lo + Int.ofNat (r % ((hi - lo).toNat + 1)))
  | .floatCol lo hi => .rat (lo + (hi - lo) * ((r % 1048576 : Nat) : ℚ) / 1048576)
  | .catCol cats => .str (cats.getD (r % cats.length) "")
  | .boolCol => .bool (r % 2 == 0)
  | .dateCol lo hi => .date (lo + r % (hi - lo + 1))

/-- Draw `n` cells for one column, threading the generator state. -/
def drawColumn (spec : ColumnSpec) : Nat → Nat → List Cell × Nat
  | 0, s => ([], s)
  | k + 1, s =>
    let s' := lcgNext s
    let rest := drawColumn spec k s'
    (drawCell spec s' :: rest.1, rest.2)

/-- Generate the columns of the dummy frame in metadata order,
threading the generator state from column to column. -/
def genColumns : List (String × ColumnSpec) → Nat → Nat → Frame
  | [], _, _ => []
  | (name, spec) :: rest, n, s =>
    (name, (drawColumn spec n s).1) :: genColumns rest n ((drawColumn spec n s).2)

/-- Modelled from the spec: `DG.generate(metadata, nb_rows, seed)` —
the generator state is seeded from `seed` alone and the frame carries
the exact column order and names of the metadata (the server-side
`dummy_dataset` module is missing from the sources). -/
def generate (meta : Metadata) (nbRows seed : Nat) : Frame :=
  genColumns meta.columns nbRows seed

/-- Modelled from the spec: a call to the Dummy Generator made while
the ambient process-wide random state is `ambient`.  Seeding replaces
the ambient state by the state derived from `seed`, so the ambient
state is discarded. -/
def runGenerate (_ambient : Nat) (meta : Metadata) (nbRows seed : Nat) : Frame :=
  generate meta nbRows seed

/-! ## Admission & Budget Engine: sequential operations -/

/-- Client-visible error taxonomy. -/
inductive QueryError where
  | invalidQuery (reason : String)
  | externalLib (msg : String)
  | unauthorized
  | internalError (msg : String)
deriving Repr, DecidableEq

/-- A successful query response: the measured cost that was charged,
the requesting user and the result frame. -/
structure QueryResponse where
  epsilon : ℚ
  delta : ℚ
  requested_by : String
  result : Frame
deriving Repr, DecidableEq

/-- Terminal reply delivered by the worker over the job's reply
channel, or a timeout of the await. -/
inductive Reply where
  | ok (res : Frame)
  | libFail (msg : String)
  | internalFail (msg : String)
  | timeout
deriving Repr, DecidableEq

/-- Gate checks of the admission protocol: resolve the user, reject if
absent or `may_query` is false, then confirm the `(user, dataset)`
grant; on success return the grant's budget entry. -/
def gateCheck (st : ASState) (u d : String) : Option BudgetEntry :=
  match findUser st.users u with
  | none => none
  | some r => if r.may_query then findEntry r.datasets_list d else none

/-- Debit a measured cost from a budget entry. -/
def debitB (e dl : ℚ) (b : BudgetEntry) : BudgetEntry :=
  { b with spent_epsilon := b.spent_epsilon + e, spent_delta := b.spent_delta + dl }

/-- Restore (compensate) a previously debited measured cost. -/
def creditB (e dl : ℚ) (b : BudgetEntry) : BudgetEntry :=
  { b with spent_epsilon := b.spent_epsilon - e, spent_delta := b.spent_delta - dl }

/-- Modelled from the spec: the production admission protocol
`execute_query` of the Admission & Budget Engine, whose implementation
is missing from the sources.  `payloadValid` is the outcome of payload
normalization, `cost` the backend's `estimate_cost` capability applied
to the payload's requested parameters, `reply` the worker's terminal
reply.  Steps: gate checks; payload normalization; cost estimation
giving the measured cost `(e, dl)`; budget pre-check; atomic debit of
the measured cost; terminal disposition with archive write, and
compensation exactly on a library failure. -/
def execute_query (st : ASState) (u d : String) (payloadValid : Bool)
    (cost : ℚ × ℚ → Option (ℚ × ℚ)) (requested : ℚ × ℚ) (reply : Reply) :
    Except QueryError QueryResponse × ASState :=
  match gateCheck st u d with
  | none => (.error .unauthorized, st)
  | some b =>
    if payloadValid then
      match cost requested with
      | none => (.error (.externalLib "cost estimation refused"), st)
      | some (e, dl) =>
        if b.initial_epsilon < b.spent_epsilon + e ∨ b.initial_delta < b.spent_delta + dl then
          (.error (.invalidQuery "BUDGET_EXCEEDED"), st)
        else
          let debited := updateBudget st u d (debitB e dl)
          match reply with
          | .ok res =>
            (.ok ⟨e, dl, u, res⟩, pushArchive debited ⟨u, d, e, dl, .OK⟩)
          | .libFail msg =>
            (.error (.externalLib msg),
              pushArchive (updateBudget debited u d (creditB e dl)) ⟨u, d, e, dl, .COMPENSATED⟩)
          | .internalFail msg =>
            (.error (.internalError msg), pushArchive debited ⟨u, d, e, dl, .INTERNAL_FAIL⟩)
          | .timeout =>
            (.error (.internalError "timeout"), pushArchive debited ⟨u, d, e, dl, .INTERNAL_FAIL⟩)
    else (.error (.invalidQuery "schema violation"), st)

/-- Modelled from the spec: `execute_dummy_query` — bypasses the
Administration Store, still validates that the user exists and holds a
grant on the dataset, executes the querier against the generated dummy
frame and never debits (the implementation is missing from the
sources). -/
def execute_dummy_query (st : ASState) (u d : String)
    (cost : ℚ × ℚ → Option (ℚ × ℚ)) (requested : ℚ × ℚ)
    (exec : Frame → Option Frame) (meta : Metadata) (nbRows seed : Nat) :
    Except QueryError QueryResponse × ASState :=
  match lookupBudget st u d with
  | none => (.error .unauthorized, st)
  | some _ =>
    match cost requested with
    | none => (.error (.externalLib "cost estimation refused"), st)
    | some (e, dl) =>
      match exec (generate meta nbRows seed) with
      | none => (.error (.externalLib "execution failed"), st)
      | some res => (.ok ⟨e, dl, u, res⟩, st)

/-- Modelled from the spec: `estimate_cost` — pure, no state change;
resolves the backend and dispatches its cost estimator (the
implementation is missing from the sources). -/
def estimate_cost (st : ASState) (u d : String)
    (cost : ℚ × ℚ → Option (ℚ × ℚ)) (requested : ℚ × ℚ) :
    Except QueryError (ℚ × ℚ) × ASState :=
  match gateCheck st u d with
  | none => (.error .unauthorized, st)
  | some _ =>
    match cost requested with
    | none => (.error (.externalLib "cost estimation refused"), st)
    | some c => (.ok c, st)

/-! ## Interleaved admissions: small-step system -/

/-- A live query job: its `(user, dataset)` key and the measured cost
frozen before the debit. -/
structure Job where
  user : String
  dataset : String
  eps : ℚ
  del : ℚ
deriving Repr, DecidableEq

/-- System state for the interleaved protocol: the Administration
Store plus the in-flight jobs that have been debited and await their
terminal reply. -/
structure SysState where
  as : ASState
  inflight : List Job
deriving Repr, DecidableEq

/-- Archive row recording a job's terminal status. -/
def jobRow (j : Job) (s : ArchiveStatus) : ArchiveRow :=
  ⟨j.user, j.dataset, j.eps, j.del, s⟩

/-- Modelled from the spec: the observable atomic transitions of
interleaved `execute_query` calls — the CAS debit of an admission
(after gate checks and the budget pre-check, with a nonnegative
measured cost), and the three terminal dispositions: archive on
success, compensation plus archive on a confirmed library failure,
archive with the debit standing on an internal failure or timeout.
Failing admissions do not change the store and have no transition. -/
inductive Step : SysState → SysState → Prop where
  | accept (st : SysState) (j : Job) (r : UserRec) (b : BudgetEntry) :
      findUser st.as.users j.user = some r →
      r.may_query = true →
      findEntry r.datasets_list j.dataset = some b →
      0 ≤ j.eps → 0 ≤ j.del →
      b.spent_epsilon + j.eps ≤ b.initial_epsilon →
      b.spent_delta + j.del ≤ b.initial_delta →
      Step st ⟨updateBudget st.as j.user j.dataset (debitB j.eps j.del), j :: st.inflight⟩
  | finishOK (st : SysState) (j : Job) :
      j ∈ st.inflight →
      Step st ⟨pushArchive st.as (jobRow j .OK), st.inflight.erase j⟩
  | finishLibFail (st : SysState) (j : Job) :
      j ∈ st.inflight →
      Step st ⟨pushArchive (updateBudget st.as j.user j.dataset (creditB j.eps j.del))
          (jobRow j .COMPENSATED), st.inflight.erase j⟩
  | finishInternal (st : SysState) (j : Job) :
      j ∈ st.inflight →
      Step st ⟨pushArchive st.as (jobRow j .INTERNAL_FAIL), st.inflight.erase j⟩

/-- Every budget entry of the store satisfies `spent ≤ initial` on
both coordinates. -/
def BudgetsBounded (as : ASState) : Prop :=
  ∀ u d b, lookupBudget as u d = some b →
    b.spent_epsilon ≤ b.initial_epsilon ∧ b.spent_delta ≤ b.initial_delta

/-- Every in-flight job carries a nonnegative measured cost. -/
def InflightNonneg (js : List Job) : Prop :=
  ∀ j ∈ js, 0 ≤ j.eps ∧ 0 ≤ j.del

/-- System invariant: bounded budgets and nonnegative in-flight costs. -/
def SysInv (st : SysState) : Prop :=
  BudgetsBounded st.as ∧ InflightNonneg st.inflight

/-- States reachable by any interleaving of admissions, completions,
compensations and failures. -/
def Reachable (init st : SysState) : Prop :=
  Relation.ReflTransGen Step init st

/-! ## Timing shaper -/

/-- Timing-shaper mode. -/
inductive TimeAttackMethod where
  | jitter
  | stall
deriving Repr, DecidableEq

/-- Timing-shaper configuration: the method and its magnitude (jitter
bound or stall target), as under `server.time_attack`. -/
structure TimeAttack where
  method : TimeAttackMethod
  magnitude : ℚ
deriving Repr, DecidableEq

/-- Modelled from the spec: the guaranteed lower bound the shaper adds
on top of the admission time — the drawn jitter delay, or the
configured stall target (the Timing Shaper implementation is missing
from the sources). -/
def shaperLowerBound (ta : TimeAttack) (draw : ℚ) : ℚ :=
  match ta.method with
  | .jitter => draw
  | .stall => ta.magnitude

/-- Modelled from the spec: emission time of a response computed at
`doneTime` for a request admitted at `acceptTime` — jitter adds the
drawn uniform delay, stall pads to at least `acceptTime + target`. -/
def responseTime (ta : TimeAttack) (acceptTime doneTime draw : ℚ) : ℚ :=
  match ta.method with
  | .jitter => doneTime + draw
  | .stall => max doneTime (acceptTime + ta.magnitude)

/-- Modelled from the spec: the shaper is a post-processor applied to
every terminal response of the core, success and failure alike; it
delays the emission but never alters the outcome. -/
def shapedRespond (ta : TimeAttack) (acceptTime doneTime draw : ℚ)
    (out : Except QueryError QueryResponse) :
    (Except QueryError QueryResponse) × ℚ :=
  (out, responseTime ta acceptTime doneTime draw)

/-! ## Concrete data from the repository -/

/-- From the test user collection (src/unnamed/part_014): user
`Dr. Antartica` with grants on `PENGUIN`, `TINTIN_S3_TEST` and `PUMS`,
all with zero spent budget. -/
def drAntartica : UserRec :=
  { user_name := "Dr. Antartica"
    may_query := true
    datasets_list :=
      [("PENGUIN", ⟨10, 1/200, 0, 0⟩),
       ("TINTIN_S3_TEST", ⟨10, 1/200, 0, 0⟩),
       ("PUMS", ⟨5, 1/200, 0, 0⟩)] }

/-- From the test user collection (src/unnamed/part_014): user
`BirthdayGirl` with a grant on `BIRTHDAYS`. -/
def birthdayGirl : UserRec :=
  { user_name := "BirthdayGirl"
    may_query := true
    datasets_list := [("BIRTHDAYS", ⟨10, 1/20, 0, 0⟩)] }

/-- Initial Administration Store loaded from the test user collection,
with an empty archive. -/
def initialAS : ASState := ⟨[drAntartica, birthdayGirl], []⟩

/-- Initial system state: the loaded store and no in-flight jobs. -/
def initialSys : SysState := ⟨initialAS, []⟩

/-- Penguin dataset metadata (from the notebook
`client/notebooks/Queries Testing.ipynb` cell output). -/
def penguinMeta : Metadata :=
  { max_ids := 1
    rows := 344
    columns :=
      [("species", .catCol ["Adelie", "Chinstrap", "Gentoo"]),
       ("island", .catCol ["Torgersen", "Biscoe", "Dream"]),
       ("bill_length_mm", .floatCol 30 65),
       ("bill_depth_mm", .floatCol 13 23),
       ("flipper_length_mm", .floatCol 150 250),
       ("body_mass_g", .floatCol 2000 7000),
       ("sex", .catCol ["MALE", "FEMALE"])] }

/-- Modelled from the spec: the smartnoise-sql cost rule observed for
the `AVG` query of the notebook — mechanism assignment doubles the
requested epsilon and halves the requested delta (`cost(0.5, 1e-4) =
(1.0, 5e-5)`, and the query requested at `(100, 0.99)` is measured at
`(200, 0.495)`); the backend adapter is missing from the sources. -/
def smartnoiseAvgCost (req : ℚ × ℚ) : Option (ℚ × ℚ) :=
  some (2 * req.1, req.2 / 2)

/-- The `PENGUIN` budget entry of `Dr. Antartica` after ten repeats of
the notebook query, each charged the measured cost `(1, 1/20000)`:
the epsilon budget is exhausted (scenario E2). -/
def exhaustedEntry : BudgetEntry := ⟨10, 1/200, 10, 1/2000⟩

/-- Store in which `Dr. Antartica` has exhausted the `PENGUIN` epsilon
budget. -/
def exhaustedAS : ASState :=
  ⟨[{ drAntartica with datasets_list := [("PENGUIN", exhaustedEntry)] }], []⟩

/-! ## Lemmas -/

theorem findUser_updUser_self (l : List UserRec) (u : String)
    (f : List (String × BudgetEntry) → List (String × BudgetEntry)) :
    findUser (updUser l u f) u
      = (findUser l u).map fun r => { r with datasets_list := f r.datasets_list } := by
  induction l with
  | nil => rfl
  | cons r rest ih =>
    by_cases h : r.user_name = u
    · simp [updUser, findUser, h]
    · simp [updUser, findUser, h, ih]

theorem findUser_updUser_ne (l : List UserRec) (u u' : String)
    (f : List (String × BudgetEntry) → List (String × BudgetEntry)) (h : u' ≠ u) :
    findUser (updUser l u f) u' = findUser l u' := by
  induction l with
  | nil => rfl
  | cons r rest ih =>
    by_cases hr : r.user_name = u
    · simp [updUser, findUser, hr, Ne.symm h]
    · by_cases hr' : r.user_name = u'
      · simp [updUser, findUser, hr, hr', h]
      · simp [updUser, findUser, hr, hr', ih]

theorem findEntry_updEntry_self (l : List (String × BudgetEntry)) (d : String)
    (f : BudgetEntry → BudgetEntry) :
    findEntry (updEntry l d f) d = (findEntry l d).map f := by
  induction l with
  | nil => rfl
  | cons p rest ih =>
    obtain ⟨k, b⟩ := p
    by_cases h : k = d
    · simp [updEntry, findEntry, h]
    · simp [updEntry, findEntry, h, ih]

theorem findEntry_updEntry_ne (l : List (String × BudgetEntry)) (d d' : String)
    (f : BudgetEntry → BudgetEntry) (h : d' ≠ d) :
    findEntry (updEntry l d f) d' = findEntry l d' := by
  induction l with
  | nil => rfl
  | cons p rest ih =>
    obtain ⟨k, b⟩ := p
    by_cases hk : k = d
    · simp [updEntry, findEntry, hk, Ne.symm h]
    · by_cases hk' : k = d'
      · simp [updEntry, findEntry, hk, hk', h]
      · simp [updEntry, findEntry, hk, hk', ih]

theorem lookupBudget_updateBudget_self (st : ASState) (u d : String)
    (f : BudgetEntry → BudgetEntry) :
    lookupBudget (updateBudget st u d f) u d = (lookupBudget st u d).map f := by
  unfold lookupBudget updateBudget
  rw [findUser_updUser_self]
  cases findUser st.users u with
  | none => rfl
  | some r => simp [findEntry_updEntry_self]

theorem lookupBudget_updateBudget_ne (st : ASState) (u d u' d' : String)
    (f : BudgetEntry → BudgetEntry) (h : u' ≠ u ∨ d' ≠ d) :
    lookupBudget (updateBudget st u d f) u' d' = lookupBudget st u' d' := by
  unfold lookupBudget updateBudget
  by_cases hu : u' = u
  · subst hu
    have hd : d' ≠ d := h.resolve_left (by simp)
    rw [findUser_updUser_self]
    cases findUser st.users u' with
    | none => rfl
    | some r => simp [findEntry_updEntry_ne _ _ _ _ hd]
  · rw [findUser_updUser_ne _ _ _ _ hu]

theorem lookupBudget_pushArchive (st : ASState) (row : ArchiveRow) (u d : String) :
    lookupBudget (pushArchive st row) u d = lookupBudget st u d := rfl

theorem findUser_mem (l : List UserRec) (u : String) (r : UserRec)
    (h : findUser l u = some r) : r ∈ l := by
  induction l with
  | nil => simp [findUser] at h
  | cons x rest ih =>
    by_cases hx : x.user_name = u
    · simp [findUser, hx] at h
      simp [h.symm]
    · simp [findUser, hx] at h
      exact List.mem_cons_of_mem _ (ih h)

theorem findEntry_mem (l : List (String × BudgetEntry)) (d : String) (b : BudgetEntry)
    (h : findEntry l d = some b) : ∃ k, (k, b) ∈ l := by
  induction l with
  | nil => simp [findEntry] at h
  | cons p rest ih =>
    obtain ⟨k, b'⟩ := p
    by_cases hk : k = d
    · simp [findEntry, hk] at h
      exact ⟨k, by simp [h.symm]⟩
    · simp [findEntry, hk] at h
      obtain ⟨k', hk'⟩ := ih h
      exact ⟨k', List.mem_cons_of_mem _ hk'⟩

theorem gateCheck_lookupBudget (st : ASState) (u d : String) (b : BudgetEntry)
    (h : gateCheck st u d = some b) : lookupBudget st u d = some b := by
  unfold gateCheck at h
  unfold lookupBudget
  cases hu : findUser st.users u with
  | none => rw [hu] at h; simp at h
  | some r =>
    rw [hu] at h
    cases hq : r.may_query with
    | false => simp [hq] at h
    | true => simp [hq] at h; simpa using h

theorem sysInv_step {st st' : SysState} (h : SysInv st) (hs : Step st st') : SysInv st' := by
  obtain ⟨hb, hj⟩ := h
  cases hs with
  | accept j r b hu hq he he0 hd0 hpe hpd =>
    refine ⟨?_, ?_⟩
    · intro u d b' hb'
      by_cases hk : u = j.user ∧ d = j.dataset
      · obtain ⟨hk1, hk2⟩ := hk
        subst hk1; subst hk2
        rw [lookupBudget_updateBudget_self] at hb'
        have hlook : lookupBudget st.as j.user j.dataset = some b := by
          simp [lookupBudget, hu, he]
        rw [hlook] at hb'
        simp only [Option.map_some'] at hb'
        have hb'' : b' = debitB j.eps j.del b := by
          exact Option.some_injective _ hb'.symm
        subst hb''
        exact ⟨hpe, hpd⟩
      · rw [lookupBudget_updateBudget_ne] at hb'
        · exact hb u d b' hb'
        · by_contra hc
          push_neg at hc
          exact hk ⟨hc.1, hc.2⟩
    · intro j' hj'
      rcases List.mem_cons.mp hj' with h1 | h2
      · subst h1; exact ⟨he0, hd0⟩
      · exact hj j' h2
  | finishOK j hmem =>
    refine ⟨?_, ?_⟩
    · intro u d b' hb'
      rw [lookupBudget_pushArchive] at hb'
      exact hb u d b' hb'
    · intro j' hj'
      exact hj j' (List.mem_of_mem_erase hj')
  | finishLibFail j hmem =>
    refine ⟨?_, ?_⟩
    · intro u d b' hb'
      rw [lookupBudget_pushArchive] at hb'
      by_cases hk : u = j.user ∧ d = j.dataset
      · obtain ⟨hk1, hk2⟩ := hk
        subst hk1; subst hk2
        rw [lookupBudget_updateBudget_self] at hb'
        cases hl : lookupBudget st.as j.user j.dataset with
        | none => rw [hl] at hb'; simp at hb'
        | some b0 =>
          rw [hl] at hb'
          simp only [Option.map_some'] at hb'
          have hb'' : b' = creditB j.eps j.del b0 := Option.some_injective _ hb'.symm
          subst hb''
          have hbound := hb j.user j.dataset b0 hl
          have hcost := hj j hmem
          unfold creditB
          constructor
          · calc b0.spent_epsilon - j.eps ≤ b0.spent_epsilon := by
                  linarith [hcost.1]
              _ ≤ b0.initial_epsilon := hbound.1
          · calc b0.spent_delta - j.del ≤ b0.spent_delta := by
                  linarith [hcost.2]
              _ ≤ b0.initial_delta := hbound.2
      · rw [lookupBudget_updateBudget_ne] at hb'
        · exact hb u d b' hb'
        · by_contra hc
          push_neg at hc
          exact hk ⟨hc.1, hc.2⟩
    · intro j' hj'
      exact hj j' (List.mem_of_mem_erase hj')
  | finishInternal j hmem =>
    refine ⟨?_, ?_⟩
    · intro u d b' hb'
      rw [lookupBudget_pushArchive] at hb'
      exact hb u d b' hb'
    · intro j' hj'
      exact hj j' (List.mem_of_mem_erase hj')

theorem sysInv_reachable {init st : SysState} (h0 : SysInv init) (hr : Reachable init st) :
    SysInv st := by
  induction hr with
  | refl => exact h0
  | tail _ hstep ih => exact sysInv_step ih hstep

/-- Bridge from the finite membership form of the budget bound to the
keyed-lookup form. -/
theorem budgetsBounded_of_forall_mem (as : ASState)
    (h : ∀ r ∈ as.users, ∀ p ∈ r.datasets_list,
      (p.2 : BudgetEntry).spent_epsilon ≤ p.2.initial_epsilon ∧
      p.2.spent_delta ≤ p.2.initial_delta) :
    BudgetsBounded as := by
  intro u d b hb
  unfold lookupBudget at hb
  cases hu : findUser as.users u with
  | none => rw [hu] at hb; simp at hb
  | some r =>
    rw [hu] at hb
    simp only at hb
    obtain ⟨k, hk⟩ := findEntry_mem r.datasets_list d b hb
    exact h r (findUser_mem as.users u r hu) (k, b) hk

theorem creditB_debitB (e dl : ℚ) (b : BudgetEntry) :
    creditB e dl (debitB e dl b) = b := by
  cases b
  simp [debitB, creditB]

theorem gateCheck_eq_none_iff (st : ASState) (u d : String) :
    gateCheck st u d = none ↔
      (findUser st.users u = none ∨
        ∃ r, findUser st.users u = some r ∧
          (r.may_query = false ∨ findEntry r.datasets_list d = none)) := by
  unfold gateCheck
  cases hu : findUser st.users u with
  | none => simp
  | some r =>
    cases hq : r.may_query with
    | false => simp [hq]
    | true => simp [hq]

theorem exec_gate_none (st : ASState) (u d : String) (pv : Bool)
    (cost : ℚ × ℚ → Option (ℚ × ℚ)) (requested : ℚ × ℚ) (reply : Reply)
    (h : gateCheck st u d = none) :
    execute_query st u d pv cost requested reply = (.error .unauthorized, st) := by
  unfold execute_query
  rw [h]

theorem exec_gate_some_not_unauthorized (st : ASState) (u d : String) (pv : Bool)
    (cost : ℚ × ℚ → Option (ℚ × ℚ)) (requested : ℚ × ℚ) (reply : Reply)
    (b : BudgetEntry) (hg : gateCheck st u d = some b) :
    (execute_query st u d pv cost requested reply).1 ≠ .error .unauthorized := by
  unfold execute_query
  rw [hg]
  cases pv with
  | false => simp
  | true =>
    cases hc : cost requested with
    | none => simp
    | some c =>
      obtain ⟨e, dl⟩ := c
      by_cases hov : b.initial_epsilon < b.spent_epsilon + e ∨
          b.initial_delta < b.spent_delta + dl
      · simp [hov]
      · cases reply <;> simp [hov]

/-! ## Claim theorems -/

/-- C1: For every user and dataset with a budget entry, at every
observable moment of every interleaving of `execute_query` —
admissions, compensations and failures included — the spent epsilon
and delta never exceed the initial epsilon and delta. -/
theorem budget_never_exceeds_initial (init st : SysState) (h0 : SysInv init)
    (hr : Reachable init st) (u d : String) (b : BudgetEntry)
    (hb : lookupBudget st.as u d = some b) :
    b.spent_epsilon ≤ b.initial_epsilon ∧ b.spent_delta ≤ b.initial_delta :=
  (sysInv_reachable h0 hr).1 u d b hb

theorem budget_never_exceeds_initial_witness :
    lookupBudget initialSys.as "Dr. Antartica" "PENGUIN" = some ⟨10, 1/200, 0, 0⟩ ∧
      (0 : ℚ) ≤ 10 ∧ (0 : ℚ) ≤ 1/200 := by
  have hinv : SysInv initialSys := by
    constructor
    · apply budgetsBounded_of_forall_mem
      intro r hr p hp
      simp only [initialSys, initialAS, List.mem_cons, List.not_mem_nil, or_false] at hr
      rcases hr with rfl | rfl
      · simp only [drAntartica, List.mem_cons, List.not_mem_nil, or_false] at hp
        rcases hp with rfl | rfl | rfl <;> norm_num
      · simp only [birthdayGirl, List.mem_cons, List.not_mem_nil, or_false] at hp
        rcases hp with rfl
        norm_num
    · intro j hj
      simp [initialSys] at hj
  have hb : lookupBudget initialSys.as "Dr. Antartica" "PENGUIN" = some ⟨10, 1/200, 0, 0⟩ := rfl
  have h := budget_never_exceeds_initial initialSys initialSys hinv
    Relation.ReflTransGen.refl "Dr. Antartica" "PENGUIN" ⟨10, 1/200, 0, 0⟩ hb
  exact ⟨hb, h.1, h.2⟩

/-- C7: `estimate_cost` is pure — the Administration Store is
identical before and after each call, for every user, dataset, backend
cost capability and payload, and repeating the call yields the same
outcome with no side effect. -/
theorem estimate_cost_pure (st : ASState) (u d : String)
    (cost : ℚ × ℚ → Option (ℚ × ℚ)) (requested : ℚ × ℚ) :
    (estimate_cost st u d cost requested).2 = st ∧
      estimate_cost (estimate_cost st u d cost requested).2 u d cost requested
        = estimate_cost st u d cost requested := by
  have h2 : (estimate_cost st u d cost requested).2 = st := by
    unfold estimate_cost
    cases hg : gateCheck st u d with
    | none => rfl
    | some b =>
      cases hc : cost requested with
      | none => rfl
      | some c => rfl
  exact ⟨h2, by rw [h2]⟩

theorem genColumns_names (cols : List (String × ColumnSpec)) (n s : Nat) :
    (genColumns cols n s).map Prod.fst = cols.map Prod.fst := by
  induction cols generalizing s with
  | nil => rfl
  | cons p rest ih =>
    obtain ⟨name, spec⟩ := p
    simp [genColumns, ih]

/-- C8: The Dummy Generator is deterministic — two calls with equal
metadata, row count and seed produce identical frames regardless of
the ambient random state, and the frame carries the exact column order
and names of the metadata. -/
theorem dummy_generator_deterministic (g₁ g₂ : Nat) (meta : Metadata) (nbRows seed : Nat) :
    runGenerate g₁ meta nbRows seed = runGenerate g₂ meta nbRows seed ∧
      (runGenerate g₁ meta nbRows seed).map Prod.fst = meta.columns.map Prod.fst :=
  ⟨rfl, genColumns_names meta.columns nbRows seed⟩

/-- C9: The timing shaper is applied to every terminal response of the
core, success and failure alike: the response is emitted no earlier
than the admission time plus the shaper's lower bound (the drawn
jitter delay, or the configured stall target), and the outcome is
unchanged. -/
theorem timing_shaper_lower_bound (ta : TimeAttack) (acceptTime doneTime draw : ℚ)
    (out : Except QueryError QueryResponse)
    (had : acceptTime ≤ doneTime) (_hdraw : 0 ≤ draw) :
    (shapedRespond ta acceptTime doneTime draw out).1 = out ∧
      acceptTime + shaperLowerBound ta draw ≤ (shapedRespond ta acceptTime doneTime draw out).2 := by
  refine ⟨rfl, ?_⟩
  unfold shapedRespond responseTime shaperLowerBound
  cases ta.method with
  | jitter =>
    simp only
    linarith
  | stall =>
    simp only
    exact le_max_right _ _

theorem timing_shaper_lower_bound_witness :
    (shapedRespond ⟨.jitter, 1⟩ 0 (1/20) (1/2) (.error .unauthorized)).1
        = .error .unauthorized ∧
      (0 : ℚ) + shaperLowerBound ⟨.jitter, 1⟩ (1/2)
        ≤ (shapedRespond ⟨.jitter, 1⟩ 0 (1/20) (1/2) (.error .unauthorized)).2 :=
  timing_shaper_lower_bound ⟨.jitter, 1⟩ 0 (1/20) (1/2) (.error .unauthorized)
    (by norm_num) (by norm_num)

/-- C2: For every admitted production query, the amount debited equals
the measured cost returned by the backend's cost estimator for the
exact payload at admission time — not the caller's requested cost —
and that same measured cost appears in the `OK` archive row and in the
response. -/
theorem charged_equals_measured (st : ASState) (u d : String)
    (cost : ℚ × ℚ → Option (ℚ × ℚ)) (requested : ℚ × ℚ) (e dl : ℚ)
    (b : BudgetEntry) (res : Frame)
    (hg : gateCheck st u d = some b)
    (hc : cost requested = some (e, dl))
    (hpe : b.spent_epsilon + e ≤ b.initial_epsilon)
    (hpd : b.spent_delta + dl ≤ b.initial_delta) :
    (execute_query st u d true cost requested (.ok res)).1 = .ok ⟨e, dl, u, res⟩ ∧
      lookupBudget (execute_query st u d true cost requested (.ok res)).2 u d
        = some ⟨b.initial_epsilon, b.initial_delta,
            b.spent_epsilon + e, b.spent_delta + dl⟩ ∧
      (execute_query st u d true cost requested (.ok res)).2.archive
        = st.archive ++ [⟨u, d, e, dl, .OK⟩] := by
  have hnlt : ¬(b.initial_epsilon < b.spent_epsilon + e ∨
      b.initial_delta < b.spent_delta + dl) := by
    push_neg
    exact ⟨hpe, hpd⟩
  have hexec : execute_query st u d true cost requested (.ok res)
      = (.ok ⟨e, dl, u, res⟩,
          pushArchive (updateBudget st u d (debitB e dl)) ⟨u, d, e, dl, .OK⟩) := by
    unfold execute_query
    rw [hg]
    simp [hc, hnlt]
  rw [hexec]
  refine ⟨rfl, ?_, ?_⟩
  · rw [lookupBudget_pushArchive, lookupBudget_updateBudget_self,
      gateCheck_lookupBudget st u d b hg]
    rfl
  · rfl

theorem charged_equals_measured_witness :
    (execute_query initialAS "Dr. Antartica" "PENGUIN" true smartnoiseAvgCost
        (1/2, 1/10000) (.ok [])).1 = .ok ⟨1, 1/20000, "Dr. Antartica", []⟩ ∧
      lookupBudget (execute_query initialAS "Dr. Antartica" "PENGUIN" true
          smartnoiseAvgCost (1/2, 1/10000) (.ok [])).2 "Dr. Antartica" "PENGUIN"
        = some ⟨10, 1/200, 0 + 1, 0 + 1/20000⟩ ∧
      (execute_query initialAS "Dr. Antartica" "PENGUIN" true smartnoiseAvgCost
          (1/2, 1/10000) (.ok [])).2.archive
        = initialAS.archive ++ [⟨"Dr. Antartica", "PENGUIN", 1, 1/20000, .OK⟩] := by
  have hg : gateCheck initialAS "Dr. Antartica" "PENGUIN" = some ⟨10, 1/200, 0, 0⟩ := rfl
  have hc : smartnoiseAvgCost (1/2, 1/10000) = some (1, 1/20000) := by
    norm_num [smartnoiseAvgCost]
  exact charged_equals_measured initialAS "Dr. Antartica" "PENGUIN" smartnoiseAvgCost
    (1/2, 1/10000) 1 (1/20000) ⟨10, 1/200, 0, 0⟩ [] hg hc (by norm_num) (by norm_num)

/-- C3: For every admitted job reaching a terminal reply: on a library
failure the engine compensates, so the spent budget equals exactly its
value just before the debit and the archive row is `COMPENSATED`; on
an internal failure or a timeout the debit stands and the archive row
is `INTERNAL_FAIL`. -/
theorem failure_disposition (st : ASState) (u d : String)
    (cost : ℚ × ℚ → Option (ℚ × ℚ)) (requested : ℚ × ℚ) (e dl : ℚ)
    (b : BudgetEntry) (msg : String)
    (hg : gateCheck st u d = some b)
    (hc : cost requested = some (e, dl))
    (hpe : b.spent_epsilon + e ≤ b.initial_epsilon)
    (hpd : b.spent_delta + dl ≤ b.initial_delta) :
    ((execute_query st u d true cost requested (.libFail msg)).1
        = .error (.externalLib msg) ∧
      lookupBudget (execute_query st u d true cost requested (.libFail msg)).2 u d
        = some b ∧
      (execute_query st u d true cost requested (.libFail msg)).2.archive
        = st.archive ++ [⟨u, d, e, dl, .COMPENSATED⟩]) ∧
    ((execute_query st u d true cost requested (.internalFail msg)).1
        = .error (.internalError msg) ∧
      lookupBudget (execute_query st u d true cost requested (.internalFail msg)).2 u d
        = some ⟨b.initial_epsilon, b.initial_delta,
            b.spent_epsilon + e, b.spent_delta + dl⟩ ∧
      (execute_query st u d true cost requested (.internalFail msg)).2.archive
        = st.archive ++ [⟨u, d, e, dl, .INTERNAL_FAIL⟩]) ∧
    ((execute_query st u d true cost requested .timeout).1
        = .error (.internalError "timeout") ∧
      lookupBudget (execute_query st u d true cost requested .timeout).2 u d
        = some ⟨b.initial_epsilon, b.initial_delta,
            b.spent_epsilon + e, b.spent_delta + dl⟩ ∧
      (execute_query st u d true cost requested .timeout).2.archive
        = st.archive ++ [⟨u, d, e, dl, .INTERNAL_FAIL⟩]) := by
  have hnlt : ¬(b.initial_epsilon < b.spent_epsilon + e ∨
      b.initial_delta < b.spent_delta + dl) := by
    push_neg
    exact ⟨hpe, hpd⟩
  have hlib : execute_query st u d true cost requested (.libFail msg)
      = (.error (.externalLib msg),
          pushArchive (updateBudget (updateBudget st u d (debitB e dl)) u d (creditB e dl))
            ⟨u, d, e, dl, .COMPENSATED⟩) := by
    unfold execute_query
    rw [hg]
    simp [hc, hnlt]
  have hint : execute_query st u d true cost requested (.internalFail msg)
      = (.error (.internalError msg),
          pushArchive (updateBudget st u d (debitB e dl)) ⟨u, d, e, dl, .INTERNAL_FAIL⟩) := by
    unfold execute_query
    rw [hg]
    simp [hc, hnlt]
  have htmo : execute_query st u d true cost requested .timeout
      = (.error (.internalError "timeout"),
          pushArchive (updateBudget st u d (debitB e dl)) ⟨u, d, e, dl, .INTERNAL_FAIL⟩) := by
    unfold execute_query
    rw [hg]
    simp [hc, hnlt]
  refine ⟨⟨by rw [hlib], ?_, by rw [hlib]; rfl⟩,
          ⟨by rw [hint], ?_, by rw [hint]; rfl⟩,
          ⟨by rw [htmo], ?_, by rw [htmo]; rfl⟩⟩
  · rw [hlib, lookupBudget_pushArchive, lookupBudget_updateBudget_self,
      lookupBudget_updateBudget_self, gateCheck_lookupBudget st u d b hg]
    simp [creditB_debitB]
  · rw [hint, lookupBudget_pushArchive, lookupBudget_updateBudget_self,
      gateCheck_lookupBudget st u d b hg]
    rfl
  · rw [htmo, lookupBudget_pushArchive, lookupBudget_updateBudget_self,
      gateCheck_lookupBudget st u d b hg]
    rfl

theorem failure_disposition_witness :
    ((execute_query initialAS "Dr. Antartica" "PENGUIN" true smartnoiseAvgCost
        (1/2, 1/10000) (.libFail "lib boom")).1 = .error (.externalLib "lib boom") ∧
      lookupBudget (execute_query initialAS "Dr. Antartica" "PENGUIN" true
          smartnoiseAvgCost (1/2, 1/10000) (.libFail "lib boom")).2
          "Dr. Antartica" "PENGUIN"
        = some ⟨10, 1/200, 0, 0⟩ ∧
      (execute_query initialAS "Dr. Antartica" "PENGUIN" true smartnoiseAvgCost
          (1/2, 1/10000) (.libFail "lib boom")).2.archive
        = initialAS.archive ++ [⟨"Dr. Antartica", "PENGUIN", 1, 1/20000, .COMPENSATED⟩]) ∧
    ((execute_query initialAS "Dr. Antartica" "PENGUIN" true smartnoiseAvgCost
        (1/2, 1/10000) (.internalFail "lib boom")).1
        = .error (.internalError "lib boom") ∧
      lookupBudget (execute_query initialAS "Dr. Antartica" "PENGUIN" true
          smartnoiseAvgCost (1/2, 1/10000) (.internalFail "lib boom")).2
          "Dr. Antartica" "PENGUIN"
        = some ⟨10, 1/200, 0 + 1, 0 + 1/20000⟩ ∧
      (execute_query initialAS "Dr. Antartica" "PENGUIN" true smartnoiseAvgCost
          (1/2, 1/10000) (.internalFail "lib boom")).2.archive
        = initialAS.archive ++ [⟨"Dr. Antartica", "PENGUIN", 1, 1/20000, .INTERNAL_FAIL⟩]) ∧
    ((execute_query initialAS "Dr. Antartica" "PENGUIN" true smartnoiseAvgCost
        (1/2, 1/10000) .timeout).1 = .error (.internalError "timeout") ∧
      lookupBudget (execute_query initialAS "Dr. Antartica" "PENGUIN" true
          smartnoiseAvgCost (1/2, 1/10000) .timeout).2 "Dr. Antartica" "PENGUIN"
        = some ⟨10, 1/200, 0 + 1, 0 + 1/20000⟩ ∧
      (execute_query initialAS "Dr. Antartica" "PENGUIN" true smartnoiseAvgCost
          (1/2, 1/10000) .timeout).2.archive
        = initialAS.archive ++ [⟨"Dr. Antartica", "PENGUIN", 1, 1/20000, .INTERNAL_FAIL⟩]) := by
  have hg : gateCheck initialAS "Dr. Antartica" "PENGUIN" = some ⟨10, 1/200, 0, 0⟩ := rfl
  have hc : smartnoiseAvgCost (1/2, 1/10000) = some (1, 1/20000) := by
    norm_num [smartnoiseAvgCost]
  exact failure_disposition initialAS "Dr. Antartica" "PENGUIN" smartnoiseAvgCost
    (1/2, 1/10000) 1 (1/20000) ⟨10, 1/200, 0, 0⟩ "lib boom" hg hc
    (by norm_num) (by norm_num)

/-- C5: For every production admission, if the current spent budget
plus the measured cost exceeds the initial budget on either
coordinate, `execute_query` fails with `INVALID_QUERY` reason
`BUDGET_EXCEEDED` and no debit occurs — the store is unchanged. -/
theorem budget_exceeded_rejected (st : ASState) (u d : String)
    (cost : ℚ × ℚ → Option (ℚ × ℚ)) (requested : ℚ × ℚ) (e dl : ℚ)
    (b : BudgetEntry) (reply : Reply)
    (hg : gateCheck st u d = some b)
    (hc : cost requested = some (e, dl))
    (hover : b.initial_epsilon < b.spent_epsilon + e ∨
      b.initial_delta < b.spent_delta + dl) :
    execute_query st u d true cost requested reply
      = (.error (.invalidQuery "BUDGET_EXCEEDED"), st) := by
  unfold execute_query
  rw [hg]
  simp [hc, hover]

theorem budget_exceeded_rejected_witness :
    execute_query exhaustedAS "Dr. Antartica" "PENGUIN" true smartnoiseAvgCost
        (1/2, 1/10000) .timeout
      = (.error (.invalidQuery "BUDGET_EXCEEDED"), exhaustedAS) := by
  have hg : gateCheck exhaustedAS "Dr. Antartica" "PENGUIN" = some exhaustedEntry := rfl
  have hc : smartnoiseAvgCost (1/2, 1/10000) = some (1, 1/20000) := by
    norm_num [smartnoiseAvgCost]
  exact budget_exceeded_rejected exhaustedAS "Dr. Antartica" "PENGUIN" smartnoiseAvgCost
    (1/2, 1/10000) 1 (1/20000) exhaustedEntry .timeout hg hc
    (Or.inl (by norm_num [exhaustedEntry]))

/-- C6: `execute_query` returns `UNAUTHORIZED` exactly when the user
is unknown, the user's `may_query` flag is false, or the user has no
grant on the requested dataset; in those cases no budget is debited
and no state changes. -/
theorem unauthorized_characterization (st : ASState) (u d : String) (pv : Bool)
    (cost : ℚ × ℚ → Option (ℚ × ℚ)) (requested : ℚ × ℚ) (reply : Reply) :
    ((execute_query st u d pv cost requested reply).1 = .error .unauthorized ↔
      (findUser st.users u = none ∨
        ∃ r, findUser st.users u = some r ∧
          (r.may_query = false ∨ findEntry r.datasets_list d = none))) ∧
    ((execute_query st u d pv cost requested reply).1 = .error .unauthorized →
      (execute_query st u d pv cost requested reply).2 = st) := by
  have hiff : (execute_query st u d pv cost requested reply).1 = .error .unauthorized ↔
      gateCheck st u d = none := by
    cases hg : gateCheck st u d with
    | none => simp [exec_gate_none st u d pv cost requested reply hg]
    | some b =>
      constructor
      · intro hcon
        exact absurd hcon (exec_gate_some_not_unauthorized st u d pv cost requested reply b hg)
      · intro hnone
        simp at hnone
  constructor
  · rw [hiff]
    exact gateCheck_eq_none_iff st u d
  · intro h
    rw [exec_gate_none st u d pv cost requested reply (hiff.mp h)]

theorem unauthorized_characterization_witness :
    (execute_query initialAS "Eve" "PENGUIN" true smartnoiseAvgCost
        (1/2, 1/10000) .timeout).1 = .error .unauthorized ∧
      (execute_query initialAS "Eve" "PENGUIN" true smartnoiseAvgCost
        (1/2, 1/10000) .timeout).2 = initialAS := by
  have h := unauthorized_characterization initialAS "Eve" "PENGUIN" true
    smartnoiseAvgCost (1/2, 1/10000) .timeout
  have hu : findUser initialAS.users "Eve" = none := rfl
  have h1 := h.1.mpr (Or.inl hu)
  exact ⟨h1, h.2 h1⟩

/-- C4: `execute_dummy_query` never modifies any Administration Store
row — spent budgets are unchanged and no archive entry is written,
since the returned store is exactly the input store — and the query
executes against the generated dummy frame only. -/
theorem dummy_isolation (st : ASState) (u d : String)
    (cost : ℚ × ℚ → Option (ℚ × ℚ)) (requested : ℚ × ℚ)
    (exec : Frame → Option Frame) (meta : Metadata) (nbRows seed : Nat) :
    (execute_dummy_query st u d cost requested exec meta nbRows seed).2 = st ∧
      ∀ resp, (execute_dummy_query st u d cost requested exec meta nbRows seed).1 = .ok resp →
        exec (generate meta nbRows seed) = some resp.result := by
  unfold execute_dummy_query
  cases hl : lookupBudget st u d with
  | none =>
    refine ⟨rfl, ?_⟩
    intro resp h
    simp at h
  | some b =>
    cases hc : cost requested with
    | none =>
      refine ⟨rfl, ?_⟩
      intro resp h
      simp at h
    | some c =>
      obtain ⟨e, dl⟩ := c
      cases hx : exec (generate meta nbRows seed) with
      | none =>
        refine ⟨rfl, ?_⟩
        intro resp h
        simp at h
      | some res =>
        refine ⟨rfl, ?_⟩
        intro resp h
        simp only [Except.ok.injEq] at h
        rw [← h]

theorem dummy_isolation_witness :
    (execute_dummy_query initialAS "Dr. Antartica" "PENGUIN" smartnoiseAvgCost
        (100, 99/100) some penguinMeta 5 42).2 = initialAS ∧
      some (generate penguinMeta 5 42)
        = some ((⟨200, 99/200, "Dr. Antartica",
            generate penguinMeta 5 42⟩ : QueryResponse).result) := by
  have hc : smartnoiseAvgCost (100, 99/100) = some (200, 99/200) := by
    norm_num [smartnoiseAvgCost]
  have h := dummy_isolation initialAS "Dr. Antartica" "PENGUIN" smartnoiseAvgCost
    (100, 99/100) some penguinMeta 5 42
  refine ⟨h.1, ?_⟩
  apply h.2
  unfold execute_dummy_query
  rw [show lookupBudget initialAS "Dr. Antartica" "PENGUIN"
      = some ⟨10, 1/200, 0, 0⟩ from rfl, hc]

/-- C10: Although it never debits, `execute_dummy_query` returns a
response whose epsilon and delta fields carry the measured cost the
backend computes for the caller's requested parameters — not the
requested values themselves and not zero. -/
theorem dummy_response_measured_cost (st : ASState) (u d : String)
    (cost : ℚ × ℚ → Option (ℚ × ℚ)) (requested : ℚ × ℚ) (e dl : ℚ)
    (b : BudgetEntry) (exec : Frame → Option Frame) (meta : Metadata)
    (nbRows seed : Nat) (res : Frame)
    (hl : lookupBudget st u d = some b)
    (hc : cost requested = some (e, dl))
    (hx : exec (generate meta nbRows seed) = some res) :
    execute_dummy_query st u d cost requested exec meta nbRows seed
      = (.ok ⟨e, dl, u, res⟩, st) := by
  unfold execute_dummy_query
  rw [hl, hc, hx]

theorem dummy_response_measured_cost_witness :
    execute_dummy_query initialAS "Dr. Antartica" "PENGUIN" smartnoiseAvgCost
        (100, 99/100) some penguinMeta 100 0
      = (.ok ⟨200, 99/200, "Dr. Antartica", generate penguinMeta 100 0⟩, initialAS) ∧
      (200 : ℚ) ≠ 100 ∧ (99/200 : ℚ) ≠ 99/100 ∧ (200 : ℚ) ≠ 0 ∧ (99/200 : ℚ) ≠ 0 := by
  refine ⟨?_, by norm_num, by norm_num, by norm_num, by norm_num⟩
  exact dummy_response_measured_cost initialAS "Dr. Antartica" "PENGUIN" smartnoiseAvgCost
    (100, 99/100) 200 (99/200) ⟨10, 1/200, 0, 0⟩ some penguinMeta 100 0
    (generate penguinMeta 100 0) rfl (by norm_num [smartnoiseAvgCost]) rfl

end Lomas
